import Mathlib

/-!
Shallow embedding of the 36c3-cms content-management frontend
(`frontend.py`, `helper.py`, `notifier.py`).

External stores (the hosted asset API, the Redis key/value store, the MQTT
broker, the ntfy endpoints) are passed in as explicit values or oracles;
machine timestamps are modelled as `Int`; Python exceptions are modelled
with `Except String`.
-/

namespace CMS

/-- Python `x or d` for an optional integer `x`: `None` and `0` are falsy,
so both fall back to `d` (used for `asset.starts or now`). -/
def pyOr : Option Int → Int → Int
  | none, d => d
  | some n, d => if n = 0 then d else n

/-- `helper.State` (`enum.StrEnum`): the only members in the source are
`NEW`, `CONFIRMED`, `REJECTED`, `DELETED`. -/
inductive State
  | new
  | confirmed
  | rejected
  | deleted
deriving DecidableEq

/-- `State(s)` as a partial lookup: StrEnum construction raises `ValueError`
for a string that is not a member value, modelled by `none`. -/
def State.ofString? : String → Option State
  | "new" => some .new
  | "confirmed" => some .confirmed
  | "rejected" => some .rejected
  | "deleted" => some .deleted
  | _ => none

/-- The `userdata` key/value bag of a raw hosted-API asset record, with the
keys this application reads given typed fields and all remaining keys kept
opaque in `other`. -/
structure Userdata where
  user : Option String
  state : Option String
  starts : Option Int
  ends : Option Int
  other : List (String × String)
deriving DecidableEq

/-- A raw asset record as returned by the hosted API
(`{id, filetype, thumb, userdata}`). -/
structure RawAsset where
  id : Nat
  filetype : String
  thumb : String
  userdata : Userdata
deriving DecidableEq

/-- `helper.Asset` (NamedTuple). -/
structure Asset where
  id : Nat
  filetype : String
  thumb : String
  state : State
  user : String
  starts : Option Int
  ends : Option Int
deriving DecidableEq

/-- `helper.parse_asset`: `asset["userdata"]["user"]` raises `KeyError` when
absent, and `State(asset["userdata"].get("state", "new"))` raises
`ValueError` when the string is not a `State` member. -/
def parse_asset (a : RawAsset) : Except String Asset :=
  match a.userdata.user with
  | none => .error "KeyError: user"
  | some u =>
    match State.ofString? (a.userdata.state.getD "new") with
    | none => .error "ValueError: not a valid State"
    | some st =>
      .ok { id := a.id, filetype := a.filetype, thumb := a.thumb,
            state := st, user := u,
            starts := a.userdata.starts, ends := a.userdata.ends }

/-- `helper.get_assets`: parse every record from `asset/list` whose userdata
carries a `user`; a parse failure inside the comprehension propagates. -/
def get_assets (raws : List RawAsset) : Except String (List Asset) :=
  (raws.filter (fun a => a.userdata.user.isSome)).mapM parse_asset

/-- `helper.get_user_assets`: the caller's own assets excluding
`state == DELETED`. -/
def get_user_assets (raws : List RawAsset) (gUser : String) :
    Except String (List Asset) :=
  (get_assets raws).map
    (List.filter (fun a => decide (a.user = gUser) && !decide (a.state = State.deleted)))

/-- `helper.get_all_live_assets`: confirmed assets, further filtered by the
display window `(starts or now) <= now <= (ends or now)` unless
`no_time_filter` is set. -/
def get_all_live_assets (raws : List RawAsset) (now : Int)
    (no_time_filter : Bool := false) : Except String (List Asset) :=
  (get_assets raws).map
    (List.filter (fun a =>
      decide (a.state = State.confirmed) &&
      (no_time_filter ||
        (decide (pyOr a.starts now ≤ now) && decide (now ≤ pyOr a.ends now)))))

/-- Python `str.lower()` on the login strings this system handles,
character by character. -/
def pyLower (s : String) : String := ⟨s.data.map Char.toLower⟩

/-- `helper.user_is_admin`: `user is not None and user.lower() in ADMIN_USERS`. -/
def user_is_admin (admins : List String) : Option String → Bool
  | none => false
  | some u => admins.contains (pyLower u)

/-- `helper.login_disabled_for_user`: admins are never disabled; anyone else
is disabled unless `TIME_MIN < now < TIME_MAX` (both strict). -/
def login_disabled_for_user (tmin tmax : Int) (admins : List String)
    (now : Int) (user : Option String) : Bool :=
  if user_is_admin admins user then false
  else !(decide (tmin < now) && decide (now < tmax))

/-- `frontend.before_request`: `g.user` is the session login unless the
login gate disables it, in which case the request is anonymous. -/
def before_request (tmin tmax : Int) (admins : List String) (now : Int)
    (ghLogin : Option String) : Option String :=
  if login_disabled_for_user tmin tmax admins now ghLogin then none
  else ghLogin

/-- C4: for a valid session of user `u`, a non-admin (lower-cased login not
in `ADMIN_USERS`) is treated as logged-in exactly when
`TIME_MIN < now < TIME_MAX` (open interval), and an admin session is treated
as logged-in at every `now`. -/
theorem before_request_login_gate (tmin tmax : Int) (admins : List String)
    (now : Int) (u : String) :
    (user_is_admin admins (some u) = false →
      (before_request tmin tmax admins now (some u) = some u ↔
        (tmin < now ∧ now < tmax)))
    ∧ (user_is_admin admins (some u) = true →
      before_request tmin tmax admins now (some u) = some u) := by
  constructor
  · intro hna
    simp [before_request, login_disabled_for_user, hna]
  · intro ha
    simp [before_request, login_disabled_for_user, ha]

/-- Witness for C4 at concrete inputs: with the window `(0, 10)`,
non-admin "Alice" is logged-in at `now = 5`, and admin "Root" is logged-in
at `now = 99` (outside the window). -/
theorem before_request_login_gate_witness :
    before_request 0 10 ["root"] 5 (some "Alice") = some "Alice"
    ∧ before_request 0 10 ["root"] 99 (some "Root") = some "Root" :=
  ⟨((before_request_login_gate 0 10 ["root"] 5 "Alice").1 (by decide)).mpr
      (by decide),
    (before_request_login_gate 0 10 ["root"] 99 "Root").2 (by decide)⟩

/-- C5: membership in `get_all_live_assets` is exactly `state == confirmed`
plus, unless the no-time-filter flag is set, the display window test
`(starts or now) <= now <= (ends or now)` with Python falsy `or`. -/
theorem get_all_live_assets_window (raws : List RawAsset) (now : Int)
    (assets : List Asset) (a : Asset) (h : get_assets raws = .ok assets) :
    (∀ live, get_all_live_assets raws now false = .ok live →
      (a ∈ live ↔ a ∈ assets ∧ a.state = State.confirmed ∧
        pyOr a.starts now ≤ now ∧ now ≤ pyOr a.ends now))
    ∧ (∀ live, get_all_live_assets raws now true = .ok live →
      (a ∈ live ↔ a ∈ assets ∧ a.state = State.confirmed)) := by
  constructor <;> intro live hl <;>
    · unfold get_all_live_assets at hl
      rw [h] at hl
      simp only [Except.map, Except.ok.injEq] at hl
      subst hl
      simp [List.mem_filter, and_assoc]

/-- A raw record of a confirmed, unbounded asset owned by "alice". -/
def liveRaw : RawAsset :=
  { id := 7, filetype := "image", thumb := "t",
    userdata := { user := some "alice", state := some "confirmed",
                  starts := none, ends := none, other := [] } }

/-- The parsed form of `liveRaw`. -/
def liveAsset : Asset :=
  { id := 7, filetype := "image", thumb := "t", state := .confirmed,
    user := "alice", starts := none, ends := none }

/-- Witness for C5 at a concrete input: the confirmed unbounded asset is
live at `now = 100`, by the window characterisation. -/
theorem get_all_live_assets_window_witness :
    liveAsset ∈ [liveAsset] ↔
      liveAsset ∈ [liveAsset] ∧ liveAsset.state = State.confirmed ∧
      pyOr liveAsset.starts 100 ≤ 100 ∧ (100 : Int) ≤ pyOr liveAsset.ends 100 :=
  (get_all_live_assets_window [liveRaw] 100 [liveAsset] liveAsset rfl).1
    [liveAsset] rfl

/-- Outcome of `frontend.content_request_review`; `.ok s` stands for the
`{ok: true}` response together with the state `s` written through
`update_asset_userdata`, `.err` for the 400 JSON error body, and
`.serverError` for an uncaught exception (the asserted MQTT publish). -/
inductive ReviewResult
  | redirectLogin
  | notFound
  | err (msg : String)
  | serverError (msg : String)
  | ok (newState : String)
deriving DecidableEq

/-- `frontend.content_request_review`: login gate, asset lookup (404 on
failure), owner check, "still new" check, admin auto-confirm, otherwise an
MQTT moderation message (whose failure propagates) and `state=review`. -/
def content_request_review (admins : List String) (gUser : Option String)
    (lookup : Option RawAsset) (mqttPublish : Except String Unit) :
    ReviewResult :=
  match gUser with
  | none => .redirectLogin
  | some u =>
    match lookup with
    | none => .notFound
    | some asset =>
      if asset.userdata.user ≠ some u then .err "Cannot review"
      else if asset.userdata.state.isSome then .err "Cannot review"
      else if user_is_admin admins (some u) then .ok "confirmed"
      else
        match mqttPublish with
        | .error e => .serverError e
        | .ok _ => .ok "review"

/-- A raw record of a brand-new (stateless) asset owned by "alice". -/
def newRaw : RawAsset :=
  { id := 2, filetype := "image", thumb := "t",
    userdata := { user := some "alice", state := none,
                  starts := none, ends := none, other := [] } }

/-- A raw record carrying `state = "review"`, which the application itself
writes during `content_request_review`. -/
def reviewRaw : RawAsset :=
  { id := 1, filetype := "image", thumb := "t",
    userdata := { user := some "alice", state := some "review",
                  starts := none, ends := none, other := [] } }

/-- C2: the `State` enum has no `review` member, so
`parse_asset` raises `ValueError` on an asset whose state is `"review"` —
a state the application itself writes in `content_request_review` — and
`get_assets` propagates that error instead of filtering the record;
the `new` default for an unset state does hold. -/
theorem parse_asset_review_state_raises :
    (parse_asset reviewRaw).isOk = false
    ∧ parse_asset reviewRaw = .error "ValueError: not a valid State"
    ∧ get_assets [reviewRaw] = .error "ValueError: not a valid State"
    ∧ State.ofString? "review" = none
    ∧ content_request_review [] (some "alice") (some newRaw) (.ok ())
        = .ok "review"
    ∧ parse_asset newRaw
        = .ok { id := 2, filetype := "image", thumb := "t", state := .new,
                user := "alice", starts := none, ends := none } := by
  refine ⟨rfl, rfl, rfl, rfl, rfl, rfl⟩

/-- C3: a review request by the owner of a still-stateless asset succeeds
and writes `state=review` (`state=confirmed` when the owner is an admin);
if the asset already carries any state, or the caller is not the owner,
the request is rejected with the 400 body `{error: "Cannot review"}`. -/
theorem content_request_review_guard (admins : List String) (u : String)
    (asset : RawAsset) (mq : Except String Unit) :
    (asset.userdata.user = some u → asset.userdata.state = none →
      mq = .ok () →
      content_request_review admins (some u) (some asset) mq =
        .ok (if user_is_admin admins (some u) then "confirmed" else "review"))
    ∧ (asset.userdata.state.isSome = true ∨ asset.userdata.user ≠ some u →
      content_request_review admins (some u) (some asset) mq =
        .err "Cannot review") := by
  constructor
  · intro h1 h2 h3
    subst h3
    simp [content_request_review, h1, h2]
    split <;> rfl
  · intro h
    by_cases hu : asset.userdata.user = some u
    · rcases h with h | h
      · obtain ⟨s, hs⟩ := Option.isSome_iff_exists.mp h
        simp [content_request_review, hu, hs]
      · exact absurd hu h
    · simp [content_request_review, hu]

/-- Witness for C3 at concrete inputs: owner "alice", non-admin, succeeds
into `review` on the stateless asset and is rejected on the asset already
carrying a state. -/
theorem content_request_review_guard_witness :
    content_request_review ["boss"] (some "alice") (some newRaw) (.ok ())
      = .ok (if user_is_admin ["boss"] (some "alice") then "confirmed"
             else "review")
    ∧ content_request_review ["boss"] (some "alice") (some reviewRaw) (.ok ())
      = .err "Cannot review" :=
  ⟨(content_request_review_guard ["boss"] "alice" newRaw (.ok ())).1
      rfl rfl rfl,
    (content_request_review_guard ["boss"] "alice" reviewRaw (.ok ())).2
      (Or.inl rfl)⟩

/-- The `Condition` dictionary of the minted upload policy, with one field
per operator key that `content_upload` writes. -/
structure UploadCondition where
  stringEquals : List (String × String)
  notExists : List (String × Bool)
  boolean : List (String × Bool)
  numericEquals : List (String × Int)
  numericLess : List (String × Int)
deriving DecidableEq

/-- The condition built by `frontend.content_upload` after the filetype has
been validated: the common part plus the image branch
(width/height/format jpeg) or the video branch (duration < 11 / h264). -/
def upload_condition (user filename filetype : String) : UploadCondition :=
  let base : UploadCondition :=
    { stringEquals := [("asset:filename", filename),
                       ("asset:filetype", filetype),
                       ("userdata:user", user)],
      notExists := [("userdata:state", true)],
      boolean := [("asset:exists", false)],
      numericEquals := [], numericLess := [] }
  if filetype = "image" then
    { base with
      numericEquals := [("asset:metadata:width", 1920),
                        ("asset:metadata:height", 1080)],
      stringEquals := base.stringEquals ++ [("asset:metadata:format", "jpeg")] }
  else
    { base with
      numericLess := [("asset:metadata:duration", 11)],
      stringEquals := base.stringEquals ++ [("asset:metadata:format", "h264")] }

/-- Outcome of `frontend.content_upload`; `.ok c` stands for the JSON
response whose `upload_key` is scoped by condition `c`. -/
inductive UploadResult
  | redirectLogin
  | err (msg : String)
  | serverError (msg : String)
  | ok (condition : UploadCondition)
deriving DecidableEq

/-- The filetype validation and condition construction of
`content_upload`: `filetype not in ("image", "video")` (including a missing
parameter) is a 400 before any condition is built. -/
def upload_filetype_step (u : String) (filetype : Option String)
    (filename : String) : UploadResult :=
  match filetype with
  | none => .err "Invalid/missing filetype"
  | some ft =>
    if ft = "image" ∨ ft = "video" then .ok (upload_condition u filename ft)
    else .err "Invalid/missing filetype"

/-- The effective upload cap of `content_upload`: the per-user override
`max_uploads:{user}` from the key/value store when set and truthy
(nonzero), else `CONFIG["MAX_UPLOADS"]`. -/
def effective_max_uploads (override : Option Int) (configMax : Int) : Int :=
  match override with
  | some n => if n = 0 then configMax else n
  | none => configMax

/-- `frontend.content_upload`: login gate, per-user cap for non-admins
(compared against `len(get_user_assets())`), then filetype validation and
the upload-policy condition. -/
def content_upload (admins : List String) (configMax : Int)
    (raws : List RawAsset) (gUser : Option String) (override : Option Int)
    (filetype : Option String) (filename : String) : UploadResult :=
  match gUser with
  | none => .redirectLogin
  | some u =>
    if user_is_admin admins (some u) then
      upload_filetype_step u filetype filename
    else
      match get_user_assets raws u with
      | .error e => .serverError e
      | .ok ua =>
        if effective_max_uploads override configMax ≤ (ua.length : Int) then
          .err "You have reached your upload limit"
        else upload_filetype_step u filetype filename

theorem upload_filetype_step_ne_limit (u : String) (ft : Option String)
    (fn : String) :
    upload_filetype_step u ft fn ≠ .err "You have reached your upload limit" := by
  cases ft with
  | none => simp [upload_filetype_step]
  | some s =>
    by_cases h : s = "image" ∨ s = "video" <;> simp [upload_filetype_step, h]

theorem content_upload_ok_step (admins : List String) (configMax : Int)
    (raws : List RawAsset) (u : String) (override : Option Int)
    (ft : Option String) (fn : String) (cond : UploadCondition)
    (h : content_upload admins configMax raws (some u) override ft fn
          = .ok cond) :
    upload_filetype_step u ft fn = .ok cond := by
  simp only [content_upload] at h
  split at h
  · exact h
  · split at h
    · simp at h
    · split at h
      · simp at h
      · exact h

/-- C6: a condition is only ever produced for filetype `image` or `video`;
for `image` it requires `asset:metadata:width = 1920`,
`asset:metadata:height = 1080` and `asset:metadata:format = jpeg`, for
`video` it requires `asset:metadata:duration < 11` and
`asset:metadata:format = h264`; any other filetype is answered with the
400 body `{error: "Invalid/missing filetype"}` and no condition. -/
theorem content_upload_conditions (admins : List String) (configMax : Int)
    (raws : List RawAsset) (u fn : String) (override : Option Int)
    (ft : Option String) :
    (∀ cond, content_upload admins configMax raws (some u) override ft fn
        = .ok cond →
      (ft = some "image" ∨ ft = some "video")
      ∧ (ft = some "image" →
          ("asset:metadata:width", (1920 : Int)) ∈ cond.numericEquals
          ∧ ("asset:metadata:height", (1080 : Int)) ∈ cond.numericEquals
          ∧ ("asset:metadata:format", "jpeg") ∈ cond.stringEquals)
      ∧ (ft = some "video" →
          ("asset:metadata:duration", (11 : Int)) ∈ cond.numericLess
          ∧ ("asset:metadata:format", "h264") ∈ cond.stringEquals))
    ∧ (user_is_admin admins (some u) = true →
        ((∀ s, ft = some s → ¬(s = "image" ∨ s = "video")) →
          content_upload admins configMax raws (some u) override ft fn
            = .err "Invalid/missing filetype")
        ∧ (ft = some "image" →
          content_upload admins configMax raws (some u) override ft fn
            = .ok (upload_condition u fn "image"))
        ∧ (ft = some "video" →
          content_upload admins configMax raws (some u) override ft fn
            = .ok (upload_condition u fn "video"))) := by
  constructor
  · intro cond hok
    have hstep := content_upload_ok_step admins configMax raws u override
      ft fn cond hok
    cases ft with
    | none => simp [upload_filetype_step] at hstep
    | some s =>
      simp only [upload_filetype_step] at hstep
      split at hstep
      case isTrue hft =>
        have hcond : upload_condition u fn s = cond := by
          injection hstep
        refine ⟨?_, ?_, ?_⟩
        · rcases hft with h | h
          · exact Or.inl (by rw [h])
          · exact Or.inr (by rw [h])
        · intro hs
          have hsi : s = "image" := by injection hs
          subst hsi
          rw [← hcond]
          refine ⟨?_, ?_, ?_⟩ <;> simp [upload_condition]
        · intro hs
          have hsv : s = "video" := by injection hs
          subst hsv
          rw [← hcond]
          constructor <;> simp [upload_condition]
      case isFalse => simp at hstep
  · intro hadm
    refine ⟨?_, ?_, ?_⟩
    · intro hbad
      simp only [content_upload, hadm, if_true]
      cases ft with
      | none => rfl
      | some s =>
        simp only [upload_filetype_step]
        rw [if_neg (hbad s rfl)]
    · intro hs
      subst hs
      simp only [content_upload, hadm, if_true]
      rfl
    · intro hs
      subst hs
      simp only [content_upload, hadm, if_true]
      rfl

/-- Witness for C6 at concrete inputs: an admin caller gets the image
condition for `filetype=image` and the filetype error for `filetype=pdf`,
and the image condition carries the three required constraints. -/
theorem content_upload_conditions_witness :
    (content_upload ["alice"] 10 [] (some "alice") none (some "image") "f.jpg"
      = .ok (upload_condition "alice" "f.jpg" "image"))
    ∧ (content_upload ["alice"] 10 [] (some "alice") none (some "pdf") "f.pdf"
      = .err "Invalid/missing filetype")
    ∧ ("asset:metadata:width", (1920 : Int))
        ∈ (upload_condition "alice" "f.jpg" "image").numericEquals
    ∧ ("asset:metadata:height", (1080 : Int))
        ∈ (upload_condition "alice" "f.jpg" "image").numericEquals
    ∧ ("asset:metadata:format", "jpeg")
        ∈ (upload_condition "alice" "f.jpg" "image").stringEquals :=
  ⟨((content_upload_conditions ["alice"] 10 [] "alice" "f.jpg" none
        (some "image")).2 (by decide)).2.1 rfl,
    ((content_upload_conditions ["alice"] 10 [] "alice" "f.pdf" none
        (some "pdf")).2 (by decide)).1 (by
          intro s hs
          cases hs
          decide),
    by decide, by decide, by decide⟩

/-- C7: for a logged-in non-admin, the upload is rejected with the 400 body
`{error: "You have reached your upload limit"}` exactly when the count of
non-deleted owned assets meets or exceeds the effective cap (the nonzero
per-user override, else the configured default); an admin caller never
receives that rejection. -/
theorem content_upload_cap (admins : List String) (configMax : Int)
    (raws : List RawAsset) (u fn : String) (override : Option Int)
    (ft : Option String) :
    (∀ ua, user_is_admin admins (some u) = false →
      get_user_assets raws u = .ok ua →
      (content_upload admins configMax raws (some u) override ft fn
          = .err "You have reached your upload limit"
        ↔ effective_max_uploads override configMax ≤ (ua.length : Int)))
    ∧ (user_is_admin admins (some u) = true →
      content_upload admins configMax raws (some u) override ft fn
        ≠ .err "You have reached your upload limit")
    ∧ (∀ n c, effective_max_uploads none c = c
        ∧ (n ≠ 0 → effective_max_uploads (some n) c = n)
        ∧ effective_max_uploads (some 0) c = c) := by
  refine ⟨?_, ?_, ?_⟩
  · intro ua hna hua
    simp only [content_upload, hna, Bool.false_eq_true, if_false, hua]
    constructor
    · intro h
      by_contra hc
      rw [if_neg hc] at h
      exact upload_filetype_step_ne_limit u ft fn h
    · intro h
      rw [if_pos h]
  · intro hadm
    simp only [content_upload, hadm, if_true]
    exact upload_filetype_step_ne_limit u ft fn
  · intro n c
    refine ⟨rfl, ?_, by simp [effective_max_uploads]⟩
    intro hn
    simp [effective_max_uploads, hn]

/-- Witness for C7 at concrete inputs: non-admin "alice" with zero assets
and a negative override is rejected (0 ≥ -1), and with no override and
default cap 2 she is not rejected. -/
theorem content_upload_cap_witness :
    content_upload [] 2 [] (some "alice") (some (-1)) (some "image") "f"
      = .err "You have reached your upload limit"
    ∧ content_upload [] 2 [] (some "alice") none (some "image") "f"
      ≠ .err "You have reached your upload limit" :=
  ⟨((content_upload_cap [] 2 [] "alice" "f" (some (-1)) (some "image")).1
      [] rfl rfl).mpr (by decide),
    fun h =>
      absurd (((content_upload_cap [] 2 [] "alice" "f" none (some "image")).1
        [] rfl rfl).mp h) (by decide)⟩

/-- Outcome of the moderation routes; `.page` stands for the rendered
moderation page, `.ok s` for the `{ok: true}` response together with the
state written through `update_asset_userdata`. -/
inductive ModerateResult
  | notFound
  | redirectLogin
  | unauthorized
  | serverError (msg : String)
  | page (assetId : Nat) (user : String) (filetype : String) (state : String)
  | ok (newState : String)
deriving DecidableEq

/-- `frontend.content_moderate` (GET): signature check first, then login
gate, then admin gate, then asset lookup (404 on failure), 404 on a
deleted asset, else the rendered page.  The signing function `mk_sig` is
imported from a module that only consumes it here, so it is passed in as
an opaque function. -/
def content_moderate (mkSig : Nat → String) (admins : List String)
    (assetId : Nat) (sig : String) (gUser : Option String)
    (lookup : Option RawAsset) : ModerateResult :=
  if sig ≠ mkSig assetId then .notFound
  else match gUser with
    | none => .redirectLogin
    | some u =>
      if ¬ user_is_admin admins (some u) then .unauthorized
      else match lookup with
        | none => .notFound
        | some asset =>
          let state := asset.userdata.state.getD "new"
          if state = "deleted" then .notFound
          else match asset.userdata.user with
            | none => .serverError "KeyError: user"
            | some owner => .page asset.id owner asset.filetype state

/-- `frontend.content_moderate_result` (POST confirm/reject): same
signature-first gating, then writes `confirmed` or `rejected`
unconditionally. -/
def content_moderate_result (mkSig : Nat → String) (admins : List String)
    (assetId : Nat) (sig : String) (result : String) (gUser : Option String)
    (lookup : Option RawAsset) : ModerateResult :=
  if sig ≠ mkSig assetId then .notFound
  else match gUser with
    | none => .redirectLogin
    | some u =>
      if ¬ user_is_admin admins (some u) then .unauthorized
      else match lookup with
        | none => .notFound
        | some _ =>
          if result = "confirm" then .ok "confirmed" else .ok "rejected"

/-- C8: whenever `sig` differs from the signing function's value for the
asset id, both moderation routes answer 404, for every session state
(anonymous, logged-in non-admin, or admin) and every lookup outcome. -/
theorem content_moderate_sig_mismatch (mkSig : Nat → String)
    (admins : List String) (assetId : Nat) (sig : String)
    (gUser : Option String) (lookup : Option RawAsset) (result : String)
    (h : sig ≠ mkSig assetId) :
    content_moderate mkSig admins assetId sig gUser lookup = .notFound
    ∧ content_moderate_result mkSig admins assetId sig result gUser lookup
      = .notFound := by
  constructor
  · unfold content_moderate
    rw [if_pos h]
  · unfold content_moderate_result
    rw [if_pos h]

/-- Witness for C8 at concrete inputs: a logged-in admin with a wrong
signature still gets 404 on both routes. -/
theorem content_moderate_sig_mismatch_witness :
    content_moderate (fun _ => "good") ["root"] 7 "evil" (some "Root")
      (some liveRaw) = .notFound
    ∧ content_moderate_result (fun _ => "good") ["root"] 7 "evil" "confirm"
      (some "Root") (some liveRaw) = .notFound :=
  content_moderate_sig_mismatch (fun _ => "good") ["root"] 7 "evil"
    (some "Root") (some liveRaw) "confirm" (by decide)

/-- What `Notifier.message` did on each channel: whether the MQTT leg was
attempted and delivered, and, per configured ntfy URL in order, whether
its HTTP POST succeeded. -/
structure NotifyLog where
  mqttAttempted : Bool
  mqttDelivered : Bool
  ntfyAttempts : List (String × Bool)
deriving DecidableEq

/-- `notifier.Notifier.message`: the MQTT leg (when configured) runs inside
`try/except`, and each configured ntfy URL is POSTed inside its own
`try/except`, so every channel failure is caught and logged and the next
URL is still attempted.  The channels' outcomes are supplied as oracles;
the function returning a plain `NotifyLog` (rather than `Except`) embeds
that `message` never raises to its caller. -/
def Notifier.message (mqttConfigured : Bool)
    (mqttPublish : Except String Unit) (ntfyUrls : List String)
    (ntfyPost : String → Except String Unit) : NotifyLog :=
  { mqttAttempted := mqttConfigured
    mqttDelivered := mqttConfigured && (mqttPublish matches .ok _)
    ntfyAttempts := ntfyUrls.map (fun u => (u, (ntfyPost u).isOk)) }

/-- C9: for every failure combination, `Notifier.message` returns normally
and attempts the HTTP POST on every configured ntfy URL: the attempt list
covers exactly the configured URLs in order, a URL whose POST succeeds is
recorded as delivered no matter how the other channels failed, and the
ntfy attempts do not depend on the MQTT outcome. -/
theorem map_fst_map_pair {α β : Type} (f : α → β) (l : List α) :
    (l.map (fun u => (u, f u))).map Prod.fst = l := by
  induction l with
  | nil => rfl
  | cons x xs ih => simp [ih]

theorem notifier_message_resilient (mqttConfigured : Bool)
    (mqttPublish : Except String Unit) (ntfyUrls : List String)
    (ntfyPost : String → Except String Unit) :
    ((Notifier.message mqttConfigured mqttPublish ntfyUrls
        ntfyPost).ntfyAttempts.map Prod.fst = ntfyUrls)
    ∧ (∀ u, u ∈ ntfyUrls →
        (u, (ntfyPost u).isOk) ∈ (Notifier.message mqttConfigured mqttPublish
          ntfyUrls ntfyPost).ntfyAttempts)
    ∧ (∀ u, u ∈ ntfyUrls → ntfyPost u = .ok () →
        (u, true) ∈ (Notifier.message mqttConfigured mqttPublish ntfyUrls
          ntfyPost).ntfyAttempts)
    ∧ (∀ mqttPublish2,
        (Notifier.message mqttConfigured mqttPublish ntfyUrls
          ntfyPost).ntfyAttempts
        = (Notifier.message mqttConfigured mqttPublish2 ntfyUrls
          ntfyPost).ntfyAttempts) := by
  refine ⟨?_, ?_, ?_, fun _ => rfl⟩
  · exact map_fst_map_pair (fun u => (ntfyPost u).isOk) ntfyUrls
  · intro u hu
    simp only [Notifier.message]
    exact List.mem_map_of_mem (fun u => (u, (ntfyPost u).isOk)) hu
  · intro u hu hok
    have h2 := List.mem_map_of_mem (fun u => (u, (ntfyPost u).isOk)) hu
    simp only [Notifier.message]
    simpa [hok, Except.isOk] using h2

/-- Witness for C9 at concrete inputs: with the MQTT leg failing and one
unreachable ntfy URL, the reachable URL is still attempted and delivered. -/
theorem notifier_message_resilient_witness :
    ("http://good", true) ∈ (Notifier.message true (.error "connect refused")
      ["http://bad", "http://good"]
      (fun u => if u = "http://good" then .ok () else .error "unreachable")
      ).ntfyAttempts :=
  (notifier_message_resilient true (.error "connect refused")
    ["http://bad", "http://good"]
    (fun u => if u = "http://good" then .ok () else .error "unreachable")
    ).2.2.1 "http://good" (by decide) rfl

/-- Modelled from the spec: `update_asset_userdata` lives in `ib_hosted`,
which is not among the sources; the spec describes it as "a userdata-update
operation accepting partial key/value merges (`update_asset_userdata`),
used for `state`, `starts`, `ends`".  The `content_update` route supplies
both the `starts` and the `ends` key (each possibly absent), so the merge
replaces exactly those two keys of the asset's userdata and leaves every
other key unchanged. -/
def update_asset_userdata_starts_ends (ud : Userdata)
    (starts ends : Option Int) : Userdata :=
  { ud with starts := starts, ends := ends }

/-- The characters CPython's `int(str)` strips as whitespace
(`Py_UNICODE_ISSPACE`): ASCII 0x09–0x0D and 0x1C–0x20, NEL, NBSP, Ogham
space mark, the 0x2000–0x200A spaces, line/paragraph separator, narrow
no-break space, medium mathematical space, ideographic space. -/
def pyIsSpace (c : Char) : Bool :=
  let n := c.toNat
  (0x09 ≤ n && n ≤ 0x0D) || (0x1C ≤ n && n ≤ 0x20) ||
  n = 0x85 || n = 0xA0 || n = 0x1680 ||
  (0x2000 ≤ n && n ≤ 0x200A) ||
  n = 0x2028 || n = 0x2029 || n = 0x202F || n = 0x205F || n = 0x3000

/-- Leading and trailing whitespace removal performed by `int(str)`. -/
def pyStrip (cs : List Char) : List Char :=
  ((cs.dropWhile pyIsSpace).reverse.dropWhile pyIsSpace).reverse

/-- First code points of the runs of ten consecutive decimal digits that
make up the Unicode `Nd` category (Unicode 15.0), which `int(str)` maps to
ASCII digits before parsing; the five runs from 0x1D7CE cover the
mathematical digit block 0x1D7CE–0x1D7FF. -/
def ndRangeStarts : List Nat :=
  [0x0030, 0x0660, 0x06F0, 0x07C0, 0x0966, 0x09E6, 0x0A66, 0x0AE6,
   0x0B66, 0x0BE6, 0x0C66, 0x0CE6, 0x0D66, 0x0DE6, 0x0E50, 0x0ED0,
   0x0F20, 0x1040, 0x1090, 0x17E0, 0x1810, 0x1946, 0x19D0, 0x1A80,
   0x1A90, 0x1B50, 0x1BB0, 0x1C40, 0x1C50, 0xA620, 0xA8D0, 0xA900,
   0xA9D0, 0xA9F0, 0xAA50, 0xABF0, 0xFF10, 0x104A0, 0x10D30, 0x11066,
   0x110F0, 0x11136, 0x111D0, 0x112F0, 0x11450, 0x114D0, 0x11650,
   0x116C0, 0x11730, 0x118E0, 0x11950, 0x11C50, 0x11D50, 0x11DA0,
   0x11F50, 0x16A60, 0x16AC0, 0x16B50, 0x1D7CE, 0x1D7D8, 0x1D7E2,
   0x1D7EC, 0x1D7F6, 0x1E140, 0x1E2F0, 0x1E4F0, 0x1E950, 0x1FBF0]

/-- The decimal value of a Unicode `Nd` digit, `none` for any other
character. -/
def charDecimalVal? (c : Char) : Option Nat :=
  let n := c.toNat
  (ndRangeStarts.find? (fun s => s ≤ n && n < s + 10)).map (fun s => n - s)

/-- The digit run after the first digit: single underscores are allowed,
each with a digit on both sides (`int("5_0")` parses, `int("5__0")`,
`int("5_")` do not). -/
def digitsAux : List Char → Nat → Option Nat
  | [], acc => some acc
  | '_' :: c :: rest, acc =>
    match charDecimalVal? c with
    | some d => digitsAux rest (acc * 10 + d)
    | none => none
  | c :: rest, acc =>
    match charDecimalVal? c with
    | some d => digitsAux rest (acc * 10 + d)
    | none => none

/-- A nonempty digit-led run of `Nd` digits with optional single
underscores between digits. -/
def parseDecimal : List Char → Option Nat
  | [] => none
  | c :: rest =>
    match charDecimalVal? c with
    | some d => digitsAux rest d
    | none => none

/-- Python `int(s)` on a string: surrounding whitespace is stripped, an
optional single ASCII `+` or `-` sign is followed by one or more decimal
digits (any Unicode `Nd` character) with single underscores permitted
between digits; everything else raises `ValueError`, modelled by `none`. -/
def pyInt? (s : String) : Option Int :=
  match pyStrip s.data with
  | [] => none
  | '-' :: rest => (parseDecimal rest).map (fun n => -(n : Int))
  | '+' :: rest => (parseDecimal rest).map (fun n => (n : Int))
  | cs => (parseDecimal cs).map (fun n => (n : Int))

/-- `request.values.get(name, type=int)`: an absent parameter, or one that
`int()` cannot parse, yields `None`. -/
def parse_int_param : Option String → Option Int
  | none => none
  | some s => pyInt? s

/-- Outcome of `frontend.content_update`; `.ok ud` stands for the
`{ok: true}` response together with the asset's userdata after the single
`update_asset_userdata` call. -/
inductive UpdateResult
  | redirectLogin
  | notFound
  | err (msg : String)
  | ok (newUserdata : Userdata)
deriving DecidableEq

/-- `frontend.content_update` (POST `/content/<asset_id>`): login gate,
asset lookup (404 on failure), integer-typed `starts`/`ends` extraction,
owner check, then one `update_asset_userdata(asset, starts=…, ends=…)`
call whose failure is caught and answered with 400 "Cannot update". -/
def content_update (gUser : Option String) (lookup : Option RawAsset)
    (startsParam endsParam : Option String) (updateSucceeds : Bool) :
    UpdateResult :=
  match gUser with
  | none => .redirectLogin
  | some u =>
    match lookup with
    | none => .notFound
    | some asset =>
      let starts := parse_int_param startsParam
      let ends := parse_int_param endsParam
      if asset.userdata.user ≠ some u then .err "Cannot update"
      else if updateSucceeds then
        .ok (update_asset_userdata_starts_ends asset.userdata starts ends)
      else .err "Cannot update"

/-- C10: an owner-authenticated update writes both `starts` and `ends` in
one userdata update; a parameter that is absent or not an integer is
written as absent (so supplying only `starts` clears a stored `ends`, and
vice versa), and the `user`, `state` and all other userdata keys are
untouched. -/
theorem content_update_frame (u : String) (asset : RawAsset)
    (sp ep : Option String) (h : asset.userdata.user = some u) :
    content_update (some u) (some asset) sp ep true
      = .ok { user := asset.userdata.user, state := asset.userdata.state,
              starts := parse_int_param sp, ends := parse_int_param ep,
              other := asset.userdata.other } := by
  simp [content_update, update_asset_userdata_starts_ends, h]

/-- A raw record of a confirmed asset owned by "alice" with a stored
display-window end. -/
def boundedRaw : RawAsset :=
  { id := 7, filetype := "image", thumb := "t",
    userdata := { user := some "alice", state := some "confirmed",
                  starts := none, ends := some 55, other := [] } }

/-- Witness for C10 at concrete inputs: "alice" updates an asset that had
`ends = 55`, supplying `starts = " +5_0 "` (which `int()` parses to 50
after stripping whitespace, sign and underscore) and `ends = "abc"` (which
`int()` rejects); the stored `ends` is cleared and the other keys
survive. -/
theorem content_update_frame_witness :
    parse_int_param (some " +5_0 ") = some 50
    ∧ parse_int_param (some "abc") = none
    ∧ content_update (some "alice") (some boundedRaw) (some " +5_0 ")
        (some "abc") true
      = .ok { user := some "alice", state := some "confirmed",
              starts := some 50, ends := none, other := [] } :=
  ⟨by decide, by decide,
    (content_update_frame "alice" boundedRaw (some " +5_0 ") (some "abc")
      rfl).trans (by decide)⟩

/-- A configured room: display name and reporting device. -/
structure Room where
  name : String
  device_id : Nat
deriving DecidableEq

/-- A playback proof as stored in the per-device sorted log
(`{id, device_id, asset_id, ts}`; the device id is the log's key). -/
structure ProofRec where
  id : Nat
  asset_id : Nat
  ts : Int
deriving DecidableEq

/-- One entry of the `/content/last` response (without the cached-media
URL, which only repeats `id`/`filetype`). -/
structure LastEntry where
  id : Nat
  user : String
  filetype : String
  shown : Int
  thumb : String
deriving DecidableEq

/-- `dict((asset["id"], asset) for asset in assets)` as a lookup: a later
record with the same id overwrites an earlier one. -/
def asset_by_id (assets : List Asset) (i : Nat) : Option Asset :=
  assets.foldl (fun acc a => if a.id = i then some a else acc) none

/-- The response entry built for a proof joined with its live asset. -/
def mk_last_entry (a : Asset) (p : ProofRec) : LastEntry :=
  { id := p.id, user := a.user, filetype := a.filetype, shown := p.ts,
    thumb := a.thumb }

/-- The join of one proof against the live-asset snapshot. -/
def entryOf? (byId : Nat → Option Asset) (p : ProofRec) : Option LastEntry :=
  (byId p.asset_id).map (fun a => mk_last_entry a p)

/-- The body of `for proof in reversed(proofs): …` in
`frontend.content_last`, with `n` the current length of `room_last`:
a proof whose asset is unknown is skipped, otherwise its entry is
appended, and the loop breaks once `len(room_last) > 10`. -/
def room_last_loop (byId : Nat → Option Asset) :
    List ProofRec → Nat → List LastEntry
  | [], _ => []
  | p :: rest, n =>
    match byId p.asset_id with
    | none => room_last_loop byId rest n
    | some a =>
      if n + 1 > 10 then [mk_last_entry a p]
      else mk_last_entry a p :: room_last_loop byId rest (n + 1)

/-- The per-room list of `frontend.content_last`: the stored log comes back
from `zrange(…, 0, -1)` in ascending timestamp order and is reversed to
most-recent-first before the loop. -/
def room_last (byId : Nat → Option Asset) (log : List ProofRec) :
    List LastEntry :=
  room_last_loop byId log.reverse 0

/-- Lookup in the `last` dict built room by room: the entry written last
for a key wins. -/
def lookup_last (l : List (String × List LastEntry)) (k : String) :
    Option (List LastEntry) :=
  (l.reverse.find? (fun q => q.1 == k)).map Prod.snd

/-- `frontend.content_last`: joins each room's device log against the full
live-asset snapshot (`get_all_live_assets()` with the time filter on) and
answers `[[room_name, entries], …]` over the configured rooms in order. -/
def content_last (raws : List RawAsset) (now : Int) (rooms : List Room)
    (logs : Nat → List ProofRec) :
    Except String (List (String × List LastEntry)) :=
  (get_all_live_assets raws now).map (fun assets =>
    let byId := asset_by_id assets
    let lastDict := rooms.map (fun room =>
      (room.name, room_last byId (logs room.device_id)))
    rooms.map (fun room =>
      (room.name, (lookup_last lastDict room.name).getD [])))

theorem room_last_loop_eq_take (byId : Nat → Option Asset) :
    ∀ (ps : List ProofRec) (n : Nat), n ≤ 10 →
      room_last_loop byId ps n = (ps.filterMap (entryOf? byId)).take (11 - n)
  | [], n, _ => by simp [room_last_loop]
  | p :: rest, n, hn => by
    cases h : byId p.asset_id with
    | none =>
      have he : entryOf? byId p = none := by simp [entryOf?, h]
      simp only [room_last_loop, h, List.filterMap_cons, he]
      exact room_last_loop_eq_take byId rest n hn
    | some a =>
      have he : entryOf? byId p = some (mk_last_entry a p) := by
        simp [entryOf?, h]
      simp only [room_last_loop, h, List.filterMap_cons, he]
      by_cases hb : n + 1 > 10
      · have hn10 : n = 10 := by omega
        subst hn10
        simp
      · rw [if_neg hb]
        have h1 : 11 - n = (11 - (n + 1)) + 1 := by omega
        rw [h1, List.take_succ_cons]
        rw [room_last_loop_eq_take byId rest (n + 1) (by omega)]

/-- `room_last` keeps the first 11 (not 10) joined entries of the
most-recent-first scan. -/
theorem room_last_eq_take (byId : Nat → Option Asset) (log : List ProofRec) :
    room_last byId log = (log.reverse.filterMap (entryOf? byId)).take 11 :=
  room_last_loop_eq_take byId log.reverse 0 (by omega)

theorem filterMap_entryOf_all_known (byId : Nat → Option Asset) :
    ∀ (S : List ProofRec), (∀ p ∈ S, (byId p.asset_id).isSome = true) →
      (S.filterMap (entryOf? byId)).map LastEntry.shown = S.map ProofRec.ts
      ∧ (S.filterMap (entryOf? byId)).length = S.length
  | [], _ => by simp
  | p :: rest, h => by
    obtain ⟨a, ha⟩ := Option.isSome_iff_exists.mp (h p (by simp))
    have he : entryOf? byId p = some (mk_last_entry a p) := by
      simp [entryOf?, ha]
    have ih := filterMap_entryOf_all_known byId rest
      (fun q hq => h q (by simp [hq]))
    simp only [List.filterMap_cons, he, List.map_cons, List.length_cons]
    exact ⟨by rw [ih.1]; rfl, by rw [ih.2]⟩

theorem map_fst_map_pair2 {α β γ : Type} (g : α → β) (f : α → γ)
    (l : List α) :
    (l.map (fun r => (g r, f r))).map Prod.fst = l.map g := by
  induction l with
  | nil => rfl
  | cons x xs ih => simp [ih]

/-- C1 (amended): `/content/last` lists rooms in configured order and
keeps, per room, at most 11 entries — the loop appends and only then
checks `len(room_last) > 10` — taken by scanning the room's proof log
most-recent-first and silently skipping proofs whose `asset_id` is not in
the live-asset snapshot; given 15 proofs for one room's device, all
referencing known live assets, with strictly increasing timestamps, the
room's list is exactly the 11 most recent entries, most-recent-first. -/
theorem content_last_amended (raws : List RawAsset) (now : Int)
    (rooms : List Room) (logs : Nat → List ProofRec) (assets : List Asset)
    (h : get_all_live_assets raws now = .ok assets) :
    ((content_last raws now rooms logs).map (List.map Prod.fst)
        = .ok (rooms.map Room.name))
    ∧ (∀ L, content_last raws now rooms logs = .ok L →
        ∀ pr ∈ L, pr.2.length ≤ 11)
    ∧ (∀ log, room_last (asset_by_id assets) log
        = (log.reverse.filterMap (entryOf? (asset_by_id assets))).take 11)
    ∧ (∀ (room : Room) (log : List ProofRec),
        (∀ p ∈ log, ((asset_by_id assets) p.asset_id).isSome = true) →
        log.length = 15 →
        log.Pairwise (fun p q => p.ts < q.ts) →
        content_last raws now [room] (fun _ => log)
          = .ok [(room.name, room_last (asset_by_id assets) log)]
        ∧ (room_last (asset_by_id assets) log).length = 11
        ∧ (room_last (asset_by_id assets) log).map LastEntry.shown
            = (log.map ProofRec.ts).reverse.take 11
        ∧ (room_last (asset_by_id assets) log).Pairwise
            (fun e f => f.shown < e.shown)) := by
  refine ⟨?_, ?_, fun log => room_last_eq_take _ log, ?_⟩
  · simp only [content_last, h, Except.map, Except.ok.injEq]
    exact map_fst_map_pair2 Room.name _ rooms
  · intro L hL pr hpr
    simp only [content_last, h, Except.map, Except.ok.injEq] at hL
    subst hL
    obtain ⟨room, hroom, rfl⟩ := List.mem_map.mp hpr
    cases hl : lookup_last
        (rooms.map (fun room =>
          (room.name, room_last (asset_by_id assets) (logs room.device_id))))
        room.name with
    | none => simp [hl]
    | some v =>
      simp only [hl, Option.getD_some]
      unfold lookup_last at hl
      obtain ⟨q, hq1, hq2⟩ := Option.map_eq_some'.mp hl
      have hqmem := List.mem_of_find?_eq_some hq1
      rw [List.mem_reverse] at hqmem
      obtain ⟨room2, _, hq⟩ := List.mem_map.mp hqmem
      rw [← hq2, ← hq]
      rw [room_last_eq_take, List.length_take]
      exact min_le_left _ _
  · intro room log hknown hlen hpair
    have hrev : ∀ p ∈ log.reverse,
        ((asset_by_id assets) p.asset_id).isSome = true :=
      fun p hp => hknown p (List.mem_reverse.mp hp)
    have hfm := filterMap_entryOf_all_known (asset_by_id assets) log.reverse
      hrev
    have hrl := room_last_eq_take (asset_by_id assets) log
    have hshown : (room_last (asset_by_id assets) log).map LastEntry.shown
        = (log.map ProofRec.ts).reverse.take 11 := by
      rw [hrl, List.map_take, hfm.1, List.map_reverse]
    refine ⟨?_, ?_, hshown, ?_⟩
    · simp only [content_last, h, Except.map, Except.ok.injEq]
      have hlu : lookup_last
          [(room.name, room_last (asset_by_id assets) log)] room.name
          = some (room_last (asset_by_id assets) log) := by
        simp [lookup_last]
      simp [hlu]
    · rw [hrl, List.length_take, hfm.2, List.length_reverse, hlen]
      rfl
    · have hp1 : (log.map ProofRec.ts).Pairwise (· < ·) :=
        List.pairwise_map.mpr hpair
      have hp2 : ((log.map ProofRec.ts).reverse).Pairwise
          (fun a b => b < a) := List.pairwise_reverse.mpr hp1
      have hp3 : (((log.map ProofRec.ts).reverse).take 11).Pairwise
          (fun a b => b < a) :=
        List.Pairwise.sublist (List.take_sublist _ _) hp2
      have hp4 : ((room_last (asset_by_id assets) log).map
          LastEntry.shown).Pairwise (fun a b => b < a) := by
        rw [hshown]; exact hp3
      exact List.pairwise_map.mp hp4

/-- The room used in the concrete `/content/last` scenario. -/
def cexRoom : Room := { name := "saal1", device_id := 1 }

/-- 15 proofs for device 1, all referencing live asset 7, timestamps
strictly increasing 1..15 (stored in zrange's ascending order). -/
def cexLog : List ProofRec :=
  [⟨101, 7, 1⟩, ⟨102, 7, 2⟩, ⟨103, 7, 3⟩, ⟨104, 7, 4⟩, ⟨105, 7, 5⟩,
   ⟨106, 7, 6⟩, ⟨107, 7, 7⟩, ⟨108, 7, 8⟩, ⟨109, 7, 9⟩, ⟨110, 7, 10⟩,
   ⟨111, 7, 11⟩, ⟨112, 7, 12⟩, ⟨113, 7, 13⟩, ⟨114, 7, 14⟩, ⟨115, 7, 15⟩]

/-- C1 counterexample: with 15 proofs for one room's device, all
referencing the known live asset 7, with strictly increasing timestamps,
`/content/last` returns 11 entries for the room — the 11 most recent,
most-recent-first — not the 10 the claim states. -/
theorem content_last_cap_counterexample :
    (content_last [liveRaw] 100 [cexRoom] (fun _ => cexLog)).map
        (List.map (fun pr => (pr.1, pr.2.length)))
      = .ok [("saal1", 11)]
    ∧ (content_last [liveRaw] 100 [cexRoom] (fun _ => cexLog)).map
        (List.map (fun pr => (pr.1, pr.2.map LastEntry.shown)))
      = .ok [("saal1", [15, 14, 13, 12, 11, 10, 9, 8, 7, 6, 5])] := by
  constructor <;> rfl

/-- Witness for C1 (amended) at the concrete 15-proof scenario. -/
theorem content_last_amended_witness :
    content_last [liveRaw] 100 [cexRoom] (fun _ => cexLog)
      = .ok [("saal1", room_last (asset_by_id [liveAsset]) cexLog)]
    ∧ (room_last (asset_by_id [liveAsset]) cexLog).length = 11
    ∧ (room_last (asset_by_id [liveAsset]) cexLog).map LastEntry.shown
        = (cexLog.map ProofRec.ts).reverse.take 11
    ∧ (room_last (asset_by_id [liveAsset]) cexLog).Pairwise
        (fun e f => f.shown < e.shown) :=
  (content_last_amended [liveRaw] 100 [cexRoom] (fun _ => cexLog)
    [liveAsset] rfl).2.2.2 cexRoom cexLog (by decide) (by decide) (by decide)

end CMS
